import Mathlib

/-!
Verification development for the group-archive extension.

Shallow embedding conventions:
* SQLite tables are Lean lists of row structures; SQL statements become list
  operations (`filter`, `find?`, `map`), following `src/extensions/group-archive/src/db.ts`.
* `Date.now()` is an explicit `now : Int` parameter (epoch milliseconds).
* `randomUUID()` is an explicit caller-supplied identifier parameter; the source
  only relies on it being the value inserted and returned.
* A calendar date string `"YYYY-MM-DD"` is represented canonically by its epoch
  day number (days since 1970-01-01); `daysFromCivil` is the proleptic Gregorian
  conversion that `Date.UTC` / `Intl.DateTimeFormat` perform.  String equality of
  two date strings coincides with equality of their epoch day numbers.
* An IANA timezone is represented by its offset function `tz : Int → Int`
  (UTC instant in ms ↦ offset from UTC in ms), which is exactly the data the
  `Intl.DateTimeFormat` calls in the source consume.
* JavaScript floor division of a timestamp by a positive constant is `Int`
  division `/` (Euclidean division equals floor division for positive divisors).
* Fallible code returns `Except String`; the text-generation backend is a
  parameter `gen : String → Except String String` (transcript ↦ summary or error).
-/

namespace Archive

/-- Row of the `groups` table (`db.ts`, `CREATE TABLE groups`). -/
structure GroupRow where
  jid : String
  name : Option String
  first_seen : Int
  last_message : Option Int
  message_count : Int
deriving DecidableEq

/-- Row of the `messages` table (`db.ts`, `CREATE TABLE messages`). -/
structure MessageRow where
  id : String
  group_jid : String
  sender_id : String
  sender_name : Option String
  content : String
  timestamp : Int
  metadata : Option String
deriving DecidableEq

/-- Row of the `daily_summaries` table (`db.ts`, `CREATE TABLE daily_summaries`).
The `date` column (a `YYYY-MM-DD` string in the source) is represented by its
epoch day number. -/
structure DailySummaryRow where
  id : String
  group_jid : String
  date : Int
  summary_text : String
  message_count : Int
  created_at : Int
deriving DecidableEq

/-- The state owned by `ArchiveDb`: the three SQLite tables, the optional
`message_embeddings` vec0 virtual table, the `vecAvailable` capability flag and
the configured embedding dimensionality. -/
structure Db where
  groups : List GroupRow
  messages : List MessageRow
  summaries : List DailySummaryRow
  embeddings : List (String × List ℚ)
  vecAvailable : Bool
  dims : Nat
deriving DecidableEq

/-- `ArchiveDb.upsertGroup` (`db.ts` lines 136–148):
`INSERT ... VALUES (?, ?, ?, ?, 1) ON CONFLICT(jid) DO UPDATE SET
 name = COALESCE(excluded.name, groups.name), last_message = excluded.last_message,
 message_count = groups.message_count + 1`.
`groupUpdate` is the DO UPDATE clause applied to an existing row. -/
def groupUpdate (now : Int) (name : Option String) (g : GroupRow) : GroupRow :=
  { g with
    name := match name with | some n => some n | none => g.name
    last_message := some now
    message_count := g.message_count + 1 }

def upsertGroup (now : Int) (db : Db) (jid : String) (name : Option String) : Db :=
  if db.groups.any (fun g => g.jid == jid) then
    { db with groups := db.groups.map (fun g =>
        if g.jid == jid then groupUpdate now name g else g) }
  else
    { db with groups := ⟨jid, name, now, some now, 1⟩ :: db.groups }

/-- `ArchiveDb.insertMessage` (`db.ts` lines 164–173): `INSERT OR IGNORE INTO
messages ...` keyed by the primary key `id`.  The generated `randomUUID()` is
the `row.id` field supplied by the caller; a row whose `id` already exists is
ignored (no error, no change). -/
def insertMessage (db : Db) (row : MessageRow) : Db :=
  if db.messages.any (fun m => m.id == row.id) then db
  else { db with messages := row :: db.messages }

/-- The ingestion path for one inbound message: `upsertGroup` followed by
`insertMessage`, as performed by the capture handler. -/
def ingest (now : Int) (db : Db) (jid : String) (name : Option String)
    (row : MessageRow) : Db :=
  insertMessage (upsertGroup now db jid name) row

/-- Number of stored message rows carrying a given identity. -/
def countMessagesWithId (db : Db) (id : String) : Nat :=
  (db.messages.filter (fun m => m.id == id)).length

/-- `SELECT * FROM groups WHERE jid = ?` (first match on the primary key). -/
def lookupGroup (db : Db) (jid : String) : Option GroupRow :=
  db.groups.find? (fun g => g.jid == jid)

/-- The `message_count` column of a group, when the group exists. -/
def messageCountOf (db : Db) (jid : String) : Option Int :=
  (lookupGroup db jid).map (fun g => g.message_count)

/-! Helper lemmas about the store operations. -/

theorem upsertGroup_messages (now : Int) (db : Db) (jid : String) (name : Option String) :
    (upsertGroup now db jid name).messages = db.messages := by
  unfold upsertGroup; split <;> rfl

theorem insertMessage_groups (db : Db) (row : MessageRow) :
    (insertMessage db row).groups = db.groups := by
  unfold insertMessage; split <;> rfl

theorem find?_map_update {α : Type} (p : α → Bool) (f : α → α)
    (hf : ∀ a, p (f a) = p a) :
    ∀ l : List α, (l.map (fun a => if p a then f a else a)).find? p = (l.find? p).map f := by
  intro l
  induction l with
  | nil => rfl
  | cons a l ih =>
    by_cases ha : p a = true
    · simp [List.find?, ha, hf a]
    · simp [List.find?, ha, hf a, Bool.not_eq_true] at *
      simp [List.find?, ha, ih]

theorem messageCountOf_upsertGroup (now : Int) (db : Db) (jid : String)
    (name : Option String) :
    messageCountOf (upsertGroup now db jid name) jid
      = some ((messageCountOf db jid).getD 0 + 1) := by
  unfold upsertGroup
  by_cases hany : db.groups.any (fun g => g.jid == jid) = true
  · rw [if_pos hany]
    unfold messageCountOf lookupGroup
    rw [find?_map_update (fun g => g.jid == jid) (groupUpdate now name) (fun g => rfl)]
    obtain ⟨g0, hg0mem, hg0⟩ := List.any_eq_true.mp hany
    cases hfind : db.groups.find? (fun g => g.jid == jid) with
    | none => exact absurd hg0 (List.find?_eq_none.mp hfind g0 hg0mem)
    | some g1 => simp [hfind, groupUpdate]
  · rw [if_neg hany]
    have hnone : db.groups.find? (fun g => g.jid == jid) = none := by
      rw [List.find?_eq_none]
      intro x hx
      exact fun hpx => hany (List.any_eq_true.mpr ⟨x, hx, hpx⟩)
    unfold messageCountOf lookupGroup
    simp [List.find?, hnone]

theorem countMessagesWithId_zero_iff (db : Db) (id : String) :
    countMessagesWithId db id = 0 ↔ db.messages.any (fun m => m.id == id) = false := by
  unfold countMessagesWithId
  rw [List.length_eq_zero, List.filter_eq_nil_iff, List.any_eq_false]

theorem messageCountOf_ingest (now : Int) (db : Db) (jid : String)
    (name : Option String) (row : MessageRow) :
    messageCountOf (ingest now db jid name row) jid
      = some ((messageCountOf db jid).getD 0 + 1) := by
  have h := messageCountOf_upsertGroup now db jid name
  unfold ingest
  unfold messageCountOf lookupGroup at h ⊢
  rw [insertMessage_groups]
  exact h

/-! Concrete store states used by the C1 counterexample and witness. -/

def dbEmpty : Db := ⟨[], [], [], [], false, 0⟩

def msgM1 : MessageRow := ⟨"m1", "g@g.us", "alice", none, "hi", 5, none⟩

def dbTwice : Db :=
  ingest 1 (ingest 0 dbEmpty "g@g.us" none msgM1) "g@g.us" none msgM1

/-- C1 counterexample: ingesting the message identity `"m1"` twice into an
empty store (the full ingestion path `upsertGroup` then `insertMessage`, both
times with the same identity) leaves exactly one stored message row, but the
group's `messageCount` ends at 2 — `upsertGroup` increments unconditionally on
every call, so the increment is not "at most one per distinct message
identity" as the claim states. -/
theorem ingest_messageCount_cex :
    countMessagesWithId dbTwice "m1" = 1
    ∧ messageCountOf dbTwice "g@g.us" = some 2
    ∧ ¬ messageCountOf dbTwice "g@g.us" = some 1 := by decide

/-- C1 (amended): inserting a message with the same identity twice leaves
exactly one stored message row (duplicate `INSERT OR IGNORE` is a no-op), but
the owning group's `messageCount` increments by one per ingestion call — so two
ingestions of the same identity increment it by two, not by at most one. -/
theorem ingest_same_identity_twice (db : Db) (now1 now2 : Int) (jid : String)
    (n1 n2 : Option String) (r1 r2 : MessageRow) (hid : r2.id = r1.id)
    (h0 : countMessagesWithId db r1.id = 0) :
    countMessagesWithId (ingest now2 (ingest now1 db jid n1 r1) jid n2 r2) r1.id = 1
    ∧ messageCountOf (ingest now2 (ingest now1 db jid n1 r1) jid n2 r2) jid
        = some ((messageCountOf db jid).getD 0 + 2) := by
  have hany0 : db.messages.any (fun m => m.id == r1.id) = false :=
    (countMessagesWithId_zero_iff db r1.id).mp h0
  have h1m : (ingest now1 db jid n1 r1).messages = r1 :: db.messages := by
    unfold ingest insertMessage
    rw [upsertGroup_messages, hany0]
    simp
  have h2m : (ingest now2 (ingest now1 db jid n1 r1) jid n2 r2).messages
      = r1 :: db.messages := by
    generalize hd1 : ingest now1 db jid n1 r1 = d1 at h1m ⊢
    unfold ingest insertMessage
    rw [upsertGroup_messages, h1m]
    have hdup : (r1 :: db.messages).any (fun m => m.id == r2.id) = true := by
      simp [hid]
    rw [hdup]
    simp [upsertGroup_messages, h1m]
  constructor
  · unfold countMessagesWithId at h0 ⊢
    rw [h2m]
    simp [List.filter_cons, h0]
  · rw [messageCountOf_ingest, messageCountOf_ingest]
    simp
    omega

/-- C1 witness: the amended theorem applied to the empty store and the
concrete duplicated message `msgM1`. -/
theorem ingest_same_identity_twice_witness :
    countMessagesWithId dbTwice "m1" = 1
    ∧ messageCountOf dbTwice "g@g.us" = some 2 := by
  have h := ingest_same_identity_twice dbEmpty 0 1 "g@g.us" none none msgM1 msgM1
    rfl (by decide)
  exact ⟨h.1, h.2.trans (by decide)⟩

/-! ## Day-boundary resolver (`summary.ts`, `midnightUtcForDate`) -/

/-- Leap-year test of the proleptic Gregorian calendar. -/
def isLeap (y : Nat) : Bool := (y % 4 == 0 && y % 100 != 0) || y % 400 == 0

def daysInMonth (y m : Nat) : Nat :=
  if m = 2 then (if isLeap y then 29 else 28)
  else if m = 4 ∨ m = 6 ∨ m = 9 ∨ m = 11 then 30 else 31

/-- Epoch day number (days since 1970-01-01) of a calendar date, for years
from 1970 on: the conversion `Date.UTC` performs on the parsed date parts,
and the canonical representation of a `"YYYY-MM-DD"` string. -/
def daysFromCivil (y m d : Nat) : Int :=
  (((List.range (y - 1970)).foldl
      (fun a i => a + (if isLeap (1970 + i) then 366 else 365)) 0
    + (List.range (m - 1)).foldl (fun a i => a + daysInMonth y (i + 1)) 0
    + (d - 1) : Nat) : Int)

/-- Local calendar day (epoch day number) of a UTC instant under the timezone
offset function `tz` — what `Intl.DateTimeFormat(..., { timeZone }).format`
renders as `YYYY-MM-DD`.  For the positive divisor 86400000, `Int` division
is floor division, matching JavaScript calendar arithmetic. -/
def localCivilDay (tz : Int → Int) (t : Int) : Int := (t + tz t) / 86400000

/-- First element of the candidate list whose local calendar day is `target`:
the `for (offsetH ...) if (localDate === dateStr)` loop of
`midnightUtcForDate`. -/
def findMatch (tz : Int → Int) (target : Int) : List Int → Option Int
  | [] => none
  | c :: cs => if localCivilDay tz c = target then some c else findMatch tz target cs

/-- The candidates `rough + offsetH * 3_600_000` for `offsetH` from −14 to 14,
in loop order. -/
def candidateList (rough : Int) : List Int :=
  (List.range 29).map (fun (i : Nat) => rough + ((i : Int) - 14) * 3600000)

/-- `midnightUtcForDate` (`summary.ts` lines 360–390), over the epoch day `D`
of the parsed date: starting from noon UTC of that date, find the first
candidate instant lying on the right local calendar day, then subtract its
local time of day (hours, minutes and seconds as the `en-GB` formatter renders
them — milliseconds are dropped).  Fallback when no candidate matches:
`new Date(dateStr + "T00:00:00Z")`, i.e. UTC midnight of the date. -/
def midnightUtcForDay (tz : Int → Int) (D : Int) : Int :=
  match findMatch tz D (candidateList (D * 86400000 + 43200000)) with
  | some c =>
      c - ((c + tz c) % 86400000 / 3600000 * 3600000
           + (c + tz c) % 86400000 % 3600000 / 60000 * 60000
           + (c + tz c) % 86400000 % 60000 / 1000 * 1000)
  | none => D * 86400000

/-- `midnightUtcForDate` on the date parts parsed from `"YYYY-MM-DD"`. -/
def midnightUtcForDate (tz : Int → Int) (y m d : Nat) : Int :=
  midnightUtcForDay tz (daysFromCivil y m d)

/-- `resolveDayRangeUTC`: the half-open UTC range
`[dayStart, dayStart + 86_400_000)` built by `generateAndStoreSummary`
(`summary.ts` lines 404–405) and by the scheduler (part_000 lines 44–45). -/
def resolveDayRangeUTC (tz : Int → Int) (D : Int) : Int × Int :=
  (midnightUtcForDay tz D, midnightUtcForDay tz D + 86400000)

theorem findMatch_eq_none (tz : Int → Int) (target : Int) :
    ∀ l : List Int, findMatch tz target l = none →
      ∀ c ∈ l, localCivilDay tz c ≠ target := by
  intro l
  induction l with
  | nil => intro _ c hc; cases hc
  | cons a l ih =>
    intro h c hc
    unfold findMatch at h
    by_cases ha : localCivilDay tz a = target
    · rw [if_pos ha] at h; cases h
    · rw [if_neg ha] at h
      rcases List.mem_cons.mp hc with rfl | hc2
      · exact ha
      · exact ih h c hc2

theorem findMatch_eq_some (tz : Int → Int) (target : Int) :
    ∀ l : List Int, ∀ c, findMatch tz target l = some c →
      c ∈ l ∧ localCivilDay tz c = target := by
  intro l
  induction l with
  | nil => intro c h; cases h
  | cons a l ih =>
    intro c h
    unfold findMatch at h
    by_cases ha : localCivilDay tz a = target
    · rw [if_pos ha] at h
      cases h
      exact ⟨List.mem_cons_self _ _, ha⟩
    · rw [if_neg ha] at h
      obtain ⟨hmem, hday⟩ := ih c h
      exact ⟨List.mem_cons_of_mem _ hmem, hday⟩

theorem mem_candidateList (rough c : Int) :
    c ∈ candidateList rough
      ↔ ∃ i : Nat, i < 29 ∧ rough + ((i : Int) - 14) * 3600000 = c := by
  unfold candidateList
  constructor
  · intro h
    obtain ⟨i, hi, hf⟩ := List.mem_map.mp h
    exact ⟨i, List.mem_range.mp hi, hf⟩
  · rintro ⟨i, hi, hf⟩
    exact List.mem_map.mpr ⟨i, List.mem_range.mpr hi, hf⟩

/-- For a fixed-offset timezone whose offset is a whole number of seconds
within ±14 hours, the resolver returns exactly the UTC instant of local civil
midnight of the requested epoch day. -/
theorem midnightUtcForDay_fixed (D o : Int) (h1 : -50400000 ≤ o)
    (h2 : o ≤ 50400000) (h3 : o % 1000 = 0) :
    midnightUtcForDay (fun _ => o) D = D * 86400000 - o := by
  have hex : ∃ c ∈ candidateList (D * 86400000 + 43200000),
      localCivilDay (fun _ => o) c = D := by
    refine ⟨D * 86400000 + 43200000 + (((14 - o / 3600000).toNat : Int) - 14) * 3600000,
      (mem_candidateList _ _).mpr ⟨(14 - o / 3600000).toNat, by omega, rfl⟩, ?_⟩
    have hcast : ((14 - o / 3600000).toNat : Int) = 14 - o / 3600000 := by omega
    show (D * 86400000 + 43200000 + (((14 - o / 3600000).toNat : Int) - 14) * 3600000 + o)
        / 86400000 = D
    rw [hcast]
    omega
  cases hfm : findMatch (fun _ => o) D (candidateList (D * 86400000 + 43200000)) with
  | none =>
    obtain ⟨c, hcmem, hcday⟩ := hex
    exact absurd hcday (findMatch_eq_none _ _ _ hfm c hcmem)
  | some c =>
    obtain ⟨hcmem, hcday⟩ := findMatch_eq_some _ _ _ c hfm
    obtain ⟨i, hi, hc⟩ := (mem_candidateList _ _).mp hcmem
    have hday : (c + o) / 86400000 = D := hcday
    have hres : midnightUtcForDay (fun _ => o) D
        = c - ((c + o) % 86400000 / 3600000 * 3600000
               + (c + o) % 86400000 % 3600000 / 60000 * 60000
               + (c + o) % 86400000 % 60000 / 1000 * 1000) := by
      unfold midnightUtcForDay
      rw [hfm]
    rw [hres]
    omega

set_option maxRecDepth 10000 in
/-- C2 (amended): the day-boundary resolver always returns a half-open range
whose end is its start plus 86,400,000 ms; for every date and every
fixed-offset timezone (offset a whole number of seconds within ±14 h) the
start is the UTC instant of local civil midnight of that date — in particular
for UTC+2 and 2024-06-15 the range is
`[2024-06-14T22:00:00Z, 2024-06-15T22:00:00Z)`.  For a timezone whose DST
transition skips the date's local midnight the start need not be at local
midnight (see the counterexample). -/
theorem resolveDayRangeUTC_fixed_offset (y m d : Nat) (o : Int)
    (h1 : -50400000 ≤ o) (h2 : o ≤ 50400000) (h3 : o % 1000 = 0) :
    (∀ (tz : Int → Int) (E : Int),
        (resolveDayRangeUTC tz E).2 = (resolveDayRangeUTC tz E).1 + 86400000)
    ∧ (resolveDayRangeUTC (fun _ => o) (daysFromCivil y m d)).1
        = daysFromCivil y m d * 86400000 - o
    ∧ ((resolveDayRangeUTC (fun _ => o) (daysFromCivil y m d)).1 + o) % 86400000 = 0
    ∧ ((resolveDayRangeUTC (fun _ => o) (daysFromCivil y m d)).1 + o) / 86400000
        = daysFromCivil y m d
    ∧ resolveDayRangeUTC (fun _ => 7200000) (daysFromCivil 2024 6 15)
        = (1718402400000, 1718488800000) := by
  have h15 : daysFromCivil 2024 6 15 = 19889 := by decide
  have hmain := midnightUtcForDay_fixed (daysFromCivil y m d) o h1 h2 h3
  have hm := midnightUtcForDay_fixed 19889 7200000 (by norm_num) (by norm_num)
    (by norm_num)
  refine ⟨fun tz E => rfl, ?_, ?_, ?_, ?_⟩ <;> simp only [resolveDayRangeUTC]
  · exact hmain
  · rw [hmain]; omega
  · rw [hmain]; omega
  · rw [h15, hm]; norm_num

/-- C2 witness: the amended theorem at the concrete instance from the spec,
timezone UTC+2 (offset 7,200,000 ms) and date 2024-06-15. -/
theorem resolveDayRangeUTC_fixed_offset_witness :
    (-50400000 : Int) ≤ 7200000 ∧ (7200000 : Int) ≤ 50400000
    ∧ (7200000 : Int) % 1000 = 0
    ∧ resolveDayRangeUTC (fun _ => 7200000) (daysFromCivil 2024 6 15)
        = (1718402400000, 1718488800000) :=
  ⟨by norm_num, by norm_num, by norm_num,
    (resolveDayRangeUTC_fixed_offset 2024 6 15 7200000 (by norm_num) (by norm_num)
      (by norm_num)).2.2.2.2⟩

/-- America/Santiago around its 2022 DST start: offset −4 h before the
transition instant and −3 h after.  The transition fires at what would be
local midnight of 2022-09-11 (epoch day 19246), so that date has no local
civil midnight — clocks jump from 23:59:59 on 2022-09-10 directly to
01:00:00 on 2022-09-11. -/
def tzSantiago2022 : Int → Int := fun t =>
  if t < 19246 * 86400000 + 14400000 then -14400000 else -10800000

set_option maxRecDepth 10000 in
/-- C2 counterexample: for the real timezone America/Santiago and date
2022-09-11, the instant returned by the resolver has local time of day
23:00:00 (82,800,000 ms) on the previous local day — it is not at local civil
midnight of the requested date, refuting the claim's universal quantification
over timezones. -/
theorem midnightUtc_dst_gap_cex :
    daysFromCivil 2022 9 11 = 19246
    ∧ (midnightUtcForDay tzSantiago2022 19246
        + tzSantiago2022 (midnightUtcForDay tzSantiago2022 19246)) % 86400000
        = 82800000
    ∧ ¬ (midnightUtcForDay tzSantiago2022 19246
        + tzSantiago2022 (midnightUtcForDay tzSantiago2022 19246)) % 86400000
        = 0 := by
  decide

/-! ## Transcript assembly and truncation (`summary.ts`, `formatTranscript`
and `generateSummary`) -/

def pad2 (n : Nat) : String := if n < 10 then "0" ++ toString n else toString n

/-- `new Date(m.timestamp).toISOString().slice(11, 16)`: hours and minutes of
the UTC time of day of the timestamp. -/
def tsToHHMM (t : Int) : String :=
  pad2 (t % 86400000 / 3600000).toNat ++ ":"
    ++ pad2 (t % 86400000 % 3600000 / 60000).toNat

/-- One transcript line: `[time] sender: content` with
`sender = m.sender_name ?? m.sender_id`. -/
def formatMessage (m : MessageRow) : String :=
  "[" ++ tsToHHMM m.timestamp ++ "] " ++ m.sender_name.getD m.sender_id
    ++ ": " ++ m.content

/-- `formatTranscript` (`summary.ts` lines 271–279): one line per message,
joined with `"\n"`. -/
def formatTranscript (msgs : List MessageRow) : String :=
  String.intercalate "\n" (msgs.map formatMessage)

def TRUNC_MARKER : String := "\n\n[...transcript truncated...]"

/-- JavaScript `s.slice(0, n)` (strings modelled as their character data). -/
def jsSlice (s : String) (n : Nat) : String := String.mk (s.data.take n)

/-- The truncation step of `generateSummary` (`summary.ts` lines 294–298):
a transcript over 100,000 characters is cut to the budget and the truncation
marker is appended. -/
def truncateTranscript (t : String) : String :=
  if t.length > 100000 then jsSlice t 100000 ++ TRUNC_MARKER else t

/-- `generateSummary`: assemble the (possibly truncated) transcript and
dispatch it to the configured text-generation backend `gen`. -/
def generateSummary (gen : String → Except String String)
    (msgs : List MessageRow) : Except String String :=
  gen (truncateTranscript (formatTranscript msgs))

/-- C8: the transcript handed to the generation backend is the rendered
transcript when it is within the 100,000-character budget; when it exceeds the
budget it is truncated to at most budget plus marker length and ends with the
truncation marker.  Assembly is a total function — it never fails due to
size. -/
theorem generateSummary_truncation (gen : String → Except String String)
    (msgs : List MessageRow) :
    generateSummary gen msgs = gen (truncateTranscript (formatTranscript msgs))
    ∧ ((formatTranscript msgs).length > 100000 →
        (truncateTranscript (formatTranscript msgs)).length
            ≤ 100000 + TRUNC_MARKER.length
        ∧ ∃ p, truncateTranscript (formatTranscript msgs) = p ++ TRUNC_MARKER)
    ∧ ((formatTranscript msgs).length ≤ 100000 →
        truncateTranscript (formatTranscript msgs) = formatTranscript msgs) := by
  refine ⟨rfl, ?_, ?_⟩
  · intro h
    constructor
    · unfold truncateTranscript
      rw [if_pos h, String.length_append]
      have hs : (jsSlice (formatTranscript msgs) 100000).length ≤ 100000 := by
        unfold jsSlice
        have : (String.mk ((formatTranscript msgs).data.take 100000)).length
            = ((formatTranscript msgs).data.take 100000).length := rfl
        rw [this, List.length_take]
        omega
      omega
    · unfold truncateTranscript
      rw [if_pos h]
      exact ⟨jsSlice (formatTranscript msgs) 100000, rfl⟩
  · intro h
    unfold truncateTranscript
    rw [if_neg (by omega)]

/-- A message whose content alone is 100,001 characters. -/
def msgLong : MessageRow :=
  ⟨"m1", "g@g.us", "alice", none, String.mk (List.replicate 100001 'a'), 0, none⟩

/-- C8 witness: the truncation theorem applied to the one-message transcript
that exceeds the budget. -/
theorem generateSummary_truncation_witness :
    (truncateTranscript (formatTranscript [msgLong])).length
        ≤ 100000 + TRUNC_MARKER.length
    ∧ ∃ p, truncateTranscript (formatTranscript [msgLong]) = p ++ TRUNC_MARKER := by
  have hone : formatTranscript [msgLong] = formatMessage msgLong := rfl
  have hsplit : formatMessage msgLong
      = ("[" ++ tsToHHMM msgLong.timestamp ++ "] "
          ++ msgLong.sender_name.getD msgLong.sender_id ++ ": ") ++ msgLong.content :=
    rfl
  have hcontent : msgLong.content.length = 100001 := by
    have : msgLong.content.length = (List.replicate 100001 'a').length := rfl
    rw [this, List.length_replicate]
  have hlen : (formatTranscript [msgLong]).length > 100000 := by
    rw [hone, hsplit, String.length_append, hcontent]
    omega
  exact (generateSummary_truncation (fun t => Except.ok t) [msgLong]).2.1 hlen

/-! ## Daily summaries in the store and the summary pipeline
(`db.ts` `insertSummary`/`getSummary`, `summary.ts` `generateAndStoreSummary`) -/

/-- `SELECT * FROM daily_summaries WHERE group_jid = ? AND date = ?`
(`db.ts` lines 241–245); at most one row exists per key thanks to the unique
index on `(group_jid, date)`. -/
def getSummary (db : Db) (jid : String) (date : Int) : Option DailySummaryRow :=
  db.summaries.find? (fun r => r.group_jid == jid && r.date == date)

/-- `ArchiveDb.insertSummary` (`db.ts` lines 231–239): `INSERT OR REPLACE` — the
fresh random `id` never collides, so the conflict is on the unique index
`(group_jid, date)` and the insert replaces any existing row for that key.
The random id is never read back by any code path; it is modelled as `""`. -/
def insertSummary (now : Int) (db : Db) (jid : String) (date : Int)
    (text : String) (count : Int) : Db :=
  { db with summaries :=
      ⟨"", jid, date, text, count, now⟩ ::
        db.summaries.filter (fun r => !(r.group_jid == jid && r.date == date)) }

/-- `tsLE`: comparison that `ORDER BY timestamp ASC` sorts by. -/
def tsLE (a b : MessageRow) : Prop := a.timestamp ≤ b.timestamp

instance : DecidableRel tsLE := fun a b => inferInstanceAs (Decidable (a.timestamp ≤ b.timestamp))

/-- `ArchiveDb.getMessagesByGroupAndDateRange` (`db.ts` lines 175–187):
half-open timestamp range, ascending by timestamp. -/
def getMessagesByGroupAndDateRange (db : Db) (jid : String) (s e : Int) :
    List MessageRow :=
  List.insertionSort tsLE (db.messages.filter
    (fun m => m.group_jid == jid && decide (s ≤ m.timestamp) && decide (m.timestamp < e)))

/-- `generateAndStoreSummary` (`summary.ts` lines 392–414).  The result
carries the returned text, the store after the call, and whether the
text-generation backend was invoked on the success path. -/
def generateAndStoreSummary (gen : String → Except String String)
    (tz : Int → Int) (now : Int) (db : Db) (groupJid : String) (date : Int) :
    Except String (String × Db × Bool) :=
  match getSummary db groupJid date with
  | some existing => .ok (existing.summary_text, db, false)
  | none =>
    let dayStart := midnightUtcForDay tz date
    let dayEnd := dayStart + 86400000
    let messages := getMessagesByGroupAndDateRange db groupJid dayStart dayEnd
    if messages.length = 0 then .ok ("", db, false)
    else
      match generateSummary gen messages with
      | .ok summaryText =>
          .ok (summaryText,
               insertSummary now db groupJid date summaryText messages.length, true)
      | .error e => .error e

theorem getSummary_insertSummary (now : Int) (db : Db) (jid : String)
    (date : Int) (text : String) (count : Int) :
    getSummary (insertSummary now db jid date text count) jid date
      = some ⟨"", jid, date, text, count, now⟩ := by
  simp [getSummary, insertSummary, List.find?]

/-- C3: if a summary row already exists for `(groupJid, date)`, the pipeline
returns its stored text without touching the store or the backend; and after
any successful call, a second call for the same key returns the identical text
with no backend invocation and no store change — so two calls invoke the
backend at most once. -/
theorem generateAndStoreSummary_idempotent (gen : String → Except String String)
    (tz : Int → Int) (now1 now2 : Int) (db : Db) (groupJid : String) (date : Int)
    (t1 : String) (db1 : Db) (b1 : Bool)
    (h : generateAndStoreSummary gen tz now1 db groupJid date = .ok (t1, db1, b1)) :
    generateAndStoreSummary gen tz now2 db1 groupJid date = .ok (t1, db1, false)
    ∧ (∀ row, getSummary db groupJid date = some row →
        t1 = row.summary_text ∧ db1 = db ∧ b1 = false) := by
  cases hex : getSummary db groupJid date with
  | some row =>
    simp only [generateAndStoreSummary, hex] at h
    obtain ⟨ht, hdb, hb⟩ : row.summary_text = t1 ∧ db = db1 ∧ false = b1 := by
      cases h; exact ⟨rfl, rfl, rfl⟩
    subst ht hdb hb
    refine ⟨by simp only [generateAndStoreSummary, hex], fun r hr => ?_⟩
    cases hr
    exact ⟨rfl, rfl, rfl⟩
  | none =>
    simp only [generateAndStoreSummary, hex] at h
    by_cases hlen : (getMessagesByGroupAndDateRange db groupJid
        (midnightUtcForDay tz date) (midnightUtcForDay tz date + 86400000)).length = 0
    · rw [if_pos hlen] at h
      obtain ⟨ht, hdb, hb⟩ : "" = t1 ∧ db = db1 ∧ false = b1 := by
        cases h; exact ⟨rfl, rfl, rfl⟩
      subst ht hdb hb
      refine ⟨?_, fun r hr => by cases hr⟩
      simp only [generateAndStoreSummary, hex]
      rw [if_pos hlen]
    · rw [if_neg hlen] at h
      cases hgen : generateSummary gen (getMessagesByGroupAndDateRange db groupJid
          (midnightUtcForDay tz date) (midnightUtcForDay tz date + 86400000)) with
      | error e => rw [hgen] at h; cases h
      | ok text =>
        rw [hgen] at h
        obtain ⟨ht, hdb, hb⟩ : text = t1
            ∧ insertSummary now1 db groupJid date text
                (getMessagesByGroupAndDateRange db groupJid (midnightUtcForDay tz date)
                  (midnightUtcForDay tz date + 86400000)).length = db1
            ∧ true = b1 := by
          cases h; exact ⟨rfl, rfl, rfl⟩
        subst ht hdb hb
        refine ⟨?_, fun r hr => by cases hr⟩
        simp only [generateAndStoreSummary, getSummary_insertSummary]

/-- Store holding one summary row, used by the C3 witness. -/
def dbWithSummary : Db :=
  ⟨[], [], [⟨"s1", "g@g.us", 19889, "hello", 3, 0⟩], [], false, 0⟩

/-- C3 witness: the idempotency theorem applied to a store that already holds
a summary for the key; both calls return the stored text and never invoke the
backend. -/
theorem generateAndStoreSummary_idempotent_witness :
    generateAndStoreSummary (fun t => Except.ok t) (fun _ => 0) 7 dbWithSummary
        "g@g.us" 19889 = .ok ("hello", dbWithSummary, false)
    ∧ generateAndStoreSummary (fun t => Except.ok t) (fun _ => 0) 8 dbWithSummary
        "g@g.us" 19889 = .ok ("hello", dbWithSummary, false) := by
  have h1 : generateAndStoreSummary (fun t => Except.ok t) (fun _ => 0) 7 dbWithSummary
      "g@g.us" 19889 = .ok ("hello", dbWithSummary, false) := rfl
  exact ⟨h1, (generateAndStoreSummary_idempotent (fun t => Except.ok t) (fun _ => 0)
    7 8 dbWithSummary "g@g.us" 19889 "hello" dbWithSummary false h1).1⟩

/-- C4: when no summary row exists for the key and the date's UTC range holds
no messages, the pipeline returns the empty string, leaves the store
unchanged, and a subsequent `getSummary` for the key still returns absent. -/
theorem generateAndStoreSummary_empty_day (gen : String → Except String String)
    (tz : Int → Int) (now : Int) (db : Db) (groupJid : String) (date : Int)
    (hnone : getSummary db groupJid date = none)
    (hmsgs : getMessagesByGroupAndDateRange db groupJid (midnightUtcForDay tz date)
        (midnightUtcForDay tz date + 86400000) = []) :
    generateAndStoreSummary gen tz now db groupJid date = .ok ("", db, false)
    ∧ getSummary db groupJid date = none := by
  refine ⟨?_, hnone⟩
  simp only [generateAndStoreSummary, hnone]
  rw [hmsgs]
  simp

/-- C4 witness: the empty-day theorem applied to the empty store. -/
theorem generateAndStoreSummary_empty_day_witness :
    generateAndStoreSummary (fun t => Except.ok t) (fun _ => 0) 7 dbEmpty
        "g@g.us" 19889 = .ok ("", dbEmpty, false)
    ∧ getSummary dbEmpty "g@g.us" 19889 = none :=
  generateAndStoreSummary_empty_day (fun t => Except.ok t) (fun _ => 0) 7 dbEmpty
    "g@g.us" 19889 rfl rfl

/-! ## Scheduler (part_000, `createScheduler`) -/

/-- Local `HH:MM` of a UTC instant under offset function `tz` — what
`currentTimeInTimezone` renders with the `en-GB` hour/minute formatter, as an
(hour, minute) pair. -/
def localHM (tz : Int → Int) (t : Int) : Int × Int :=
  ((t + tz t) % 86400000 / 3600000, (t + tz t) % 86400000 % 3600000 / 60000)

/-- `getYesterdayDate` (part_000 lines 6–15): the local calendar day of
`Date.now() - 86_400_000`, as an epoch day number. -/
def getYesterdayDate (tz : Int → Int) (now : Int) : Int :=
  localCivilDay tz (now - 86400000)

/-- `ArchiveDb.getGroupsWithMessagesOnDate` (`db.ts` lines 249–256):
`SELECT DISTINCT group_jid FROM messages WHERE timestamp >= ? AND timestamp < ?`. -/
def getGroupsWithMessagesOnDate (db : Db) (s e : Int) : List String :=
  ((db.messages.filter
      (fun m => decide (s ≤ m.timestamp) && decide (m.timestamp < e))).map
    (fun m => m.group_jid)).dedup

/-- The scheduler's per-group loop (part_000 lines 48–54): each group's
`generateAndStoreSummary` runs inside try/catch — a failure is logged and the
loop continues, with the store unchanged by the failed call.  The result
records the store after the loop and, per group in order, whether that group's
pipeline call succeeded. -/
def runGroups (gen : String → Except String String) (tz : Int → Int) (now : Int)
    (date : Int) : List String → Db → Db × List (String × Bool)
  | [], db => (db, [])
  | g :: gs, db =>
    match generateAndStoreSummary gen tz now db g date with
    | .ok (_, db2, _) =>
        let r := runGroups gen tz now date gs db2
        (r.1, (g, true) :: r.2)
    | .error _ =>
        let r := runGroups gen tz now date gs db
        (r.1, (g, false) :: r.2)

/-- The work a non-skipped tick performs (part_000 lines 44–54): resolve
yesterday's UTC range, collect the groups with traffic, and run the summary
pipeline for each in order. -/
def tickRun (gen : String → Except String String) (tz : Int → Int) (now : Int)
    (db : Db) (yesterday : Int) : Db × List (String × Bool) :=
  runGroups gen tz now yesterday
    (getGroupsWithMessagesOnDate db (midnightUtcForDay tz yesterday)
      (midnightUtcForDay tz yesterday + 86400000)) db

/-- Result of one scheduler tick: the store afterwards, the `lastRunDate`
state afterwards, and `some results` when the run was performed (`none` when
the tick returned early). -/
structure TickResult where
  db : Db
  lastRunDate : Option Int
  ran : Option (List (String × Bool))
deriving DecidableEq

/-- One `tick` of `createScheduler` (part_000 lines 34–59): return early
unless the current local time equals the configured trigger time; return early
when `lastRunDate` already equals yesterday's local date; otherwise set
`lastRunDate` to yesterday and process every group with traffic yesterday. -/
def tick (gen : String → Except String String) (tz : Int → Int)
    (scheduledTime : Int × Int) (now : Int) (db : Db) (lastRunDate : Option Int) :
    TickResult :=
  if localHM tz now ≠ scheduledTime then ⟨db, lastRunDate, none⟩
  else if lastRunDate = some (getYesterdayDate tz now) then ⟨db, lastRunDate, none⟩
  else
    ⟨(tickRun gen tz now db (getYesterdayDate tz now)).1,
     some (getYesterdayDate tz now),
     some (tickRun gen tz now db (getYesterdayDate tz now)).2⟩

theorem localCivilDay_const (o t : Int) :
    localCivilDay (fun _ => o) t = (t + o) / 86400000 := rfl

theorem getYesterdayDate_const (o t : Int) :
    getYesterdayDate (fun _ => o) t = (t - 86400000 + o) / 86400000 := rfl

theorem tick_skip (gen : String → Except String String) (tz : Int → Int)
    (trig : Int × Int) (now : Int) (db : Db) (st : Option Int)
    (hT : localHM tz now = trig) (hst : st = some (getYesterdayDate tz now)) :
    tick gen tz trig now db st = ⟨db, st, none⟩ := by
  unfold tick
  rw [if_neg (not_not_intro hT), if_pos hst]

theorem tick_notime (gen : String → Except String String) (tz : Int → Int)
    (trig : Int × Int) (now : Int) (db : Db) (st : Option Int)
    (hT : localHM tz now ≠ trig) :
    tick gen tz trig now db st = ⟨db, st, none⟩ := by
  unfold tick
  rw [if_pos hT]

theorem tick_go (gen : String → Except String String) (tz : Int → Int)
    (trig : Int × Int) (now : Int) (db : Db) (st : Option Int)
    (hT : localHM tz now = trig) (hst : st ≠ some (getYesterdayDate tz now)) :
    tick gen tz trig now db st
      = ⟨(tickRun gen tz now db (getYesterdayDate tz now)).1,
         some (getYesterdayDate tz now),
         some (tickRun gen tz now db (getYesterdayDate tz now)).2⟩ := by
  unfold tick
  rw [if_neg (not_not_intro hT), if_neg hst]

/-- C5: with a fixed-offset timezone, two ticks whose local time equals the
trigger time on the same local day run the summary pipeline at most once (the
second always skips, since `lastRunDate` already holds yesterday's date), and
a tick at the trigger time on the following local day runs it again. -/
theorem scheduler_once_per_day (gen : String → Except String String) (o : Int)
    (trig : Int × Int) (st0 : Option Int) (db0 : Db) (now1 now2 now3 : Int)
    (h1 : localHM (fun _ => o) now1 = trig)
    (h2 : localHM (fun _ => o) now2 = trig)
    (h3 : localHM (fun _ => o) now3 = trig)
    (hsame : localCivilDay (fun _ => o) now2 = localCivilDay (fun _ => o) now1)
    (hnext : localCivilDay (fun _ => o) now3 = localCivilDay (fun _ => o) now1 + 1) :
    (tick gen (fun _ => o) trig now2 (tick gen (fun _ => o) trig now1 db0 st0).db
        (tick gen (fun _ => o) trig now1 db0 st0).lastRunDate).ran = none
    ∧ ¬((tick gen (fun _ => o) trig now1 db0 st0).ran.isSome = true
        ∧ (tick gen (fun _ => o) trig now2 (tick gen (fun _ => o) trig now1 db0 st0).db
            (tick gen (fun _ => o) trig now1 db0 st0).lastRunDate).ran.isSome = true)
    ∧ (tick gen (fun _ => o) trig now3
        (tick gen (fun _ => o) trig now2 (tick gen (fun _ => o) trig now1 db0 st0).db
          (tick gen (fun _ => o) trig now1 db0 st0).lastRunDate).db
        (tick gen (fun _ => o) trig now2 (tick gen (fun _ => o) trig now1 db0 st0).db
          (tick gen (fun _ => o) trig now1 db0 st0).lastRunDate).lastRunDate).ran.isSome
        = true := by
  have hy2 : getYesterdayDate (fun _ => o) now2 = getYesterdayDate (fun _ => o) now1 := by
    rw [getYesterdayDate_const, getYesterdayDate_const]
    rw [localCivilDay_const, localCivilDay_const] at hsame
    omega
  have hy3 : getYesterdayDate (fun _ => o) now3
      = getYesterdayDate (fun _ => o) now1 + 1 := by
    rw [getYesterdayDate_const, getYesterdayDate_const]
    rw [localCivilDay_const, localCivilDay_const] at hnext
    omega
  have hr1last : (tick gen (fun _ => o) trig now1 db0 st0).lastRunDate
      = some (getYesterdayDate (fun _ => o) now1) := by
    by_cases hst : st0 = some (getYesterdayDate (fun _ => o) now1)
    · rw [tick_skip gen (fun _ => o) trig now1 db0 st0 h1 hst]
      exact hst
    · rw [tick_go gen (fun _ => o) trig now1 db0 st0 h1 hst]
  have hr2 : tick gen (fun _ => o) trig now2 (tick gen (fun _ => o) trig now1 db0 st0).db
      (tick gen (fun _ => o) trig now1 db0 st0).lastRunDate
      = ⟨(tick gen (fun _ => o) trig now1 db0 st0).db,
         (tick gen (fun _ => o) trig now1 db0 st0).lastRunDate, none⟩ :=
    tick_skip gen (fun _ => o) trig now2 _ _ h2 (by rw [hr1last, hy2])
  refine ⟨by rw [hr2], ?_, ?_⟩
  · rw [hr2]
    intro hcontra
    exact absurd hcontra.2 (by simp)
  · have hr2last : (tick gen (fun _ => o) trig now2
        (tick gen (fun _ => o) trig now1 db0 st0).db
        (tick gen (fun _ => o) trig now1 db0 st0).lastRunDate).lastRunDate
        = some (getYesterdayDate (fun _ => o) now1) := by
      rw [hr2]
      exact hr1last
    have hne : (tick gen (fun _ => o) trig now2
        (tick gen (fun _ => o) trig now1 db0 st0).db
        (tick gen (fun _ => o) trig now1 db0 st0).lastRunDate).lastRunDate
        ≠ some (getYesterdayDate (fun _ => o) now3) := by
      rw [hr2last, hy3]
      intro hcontra
      have hcij := Option.some.inj hcontra
      omega
    rw [tick_go gen (fun _ => o) trig now3 _ _ h3 hne]
    rfl

/-- C5 witness: the once-per-day theorem at UTC offset 0, trigger 00:00,
ticks at 2024-06-15T00:00:00Z and 00:00:30Z (same local day, same trigger
minute) and at 2024-06-16T00:00:00Z. -/
theorem scheduler_once_per_day_witness :
    (tick (fun _ => Except.ok "s") (fun _ => (0 : Int)) (0, 0) 1718409630000
        (tick (fun _ => Except.ok "s") (fun _ => (0 : Int)) (0, 0) 1718409600000 dbEmpty none).db
        (tick (fun _ => Except.ok "s") (fun _ => (0 : Int)) (0, 0) 1718409600000 dbEmpty none).lastRunDate).ran
      = none
    ∧ (tick (fun _ => Except.ok "s") (fun _ => (0 : Int)) (0, 0) 1718496000000
        (tick (fun _ => Except.ok "s") (fun _ => (0 : Int)) (0, 0) 1718409630000
          (tick (fun _ => Except.ok "s") (fun _ => (0 : Int)) (0, 0) 1718409600000 dbEmpty none).db
          (tick (fun _ => Except.ok "s") (fun _ => (0 : Int)) (0, 0) 1718409600000 dbEmpty none).lastRunDate).db
        (tick (fun _ => Except.ok "s") (fun _ => (0 : Int)) (0, 0) 1718409630000
          (tick (fun _ => Except.ok "s") (fun _ => (0 : Int)) (0, 0) 1718409600000 dbEmpty none).db
          (tick (fun _ => Except.ok "s") (fun _ => (0 : Int)) (0, 0) 1718409600000 dbEmpty none).lastRunDate).lastRunDate).ran.isSome
      = true := by
  have h := scheduler_once_per_day (fun _ => Except.ok "s") 0 (0, 0) none dbEmpty
    1718409600000 1718409630000 1718496000000
    (by decide) (by decide) (by decide) (by decide) (by decide)
  exact ⟨h.1, h.2.2⟩

theorem runGroups_covers (gen : String → Except String String) (tz : Int → Int)
    (now : Int) (date : Int) :
    ∀ (gs : List String) (db : Db),
      (runGroups gen tz now date gs db).2.map Prod.fst = gs := by
  intro gs
  induction gs with
  | nil => intro db; rfl
  | cons g gs ih =>
    intro db
    cases hgas : generateAndStoreSummary gen tz now db g date with
    | ok v =>
      obtain ⟨t, db2, b⟩ := v
      unfold runGroups
      rw [hgas]
      simp [ih]
    | error e =>
      unfold runGroups
      rw [hgas]
      simp [ih]

/-- C9: whenever a tick actually runs (trigger time matched, date not yet
handled), it records the date as handled and attempts the summary pipeline for
every group with traffic in the date's range, in order — for an arbitrary
backend `gen`, including one that fails for some or all groups; a failure for
one group never prevents the remaining groups from being attempted. -/
theorem scheduler_failure_isolation (gen : String → Except String String)
    (tz : Int → Int) (trig : Int × Int) (now : Int) (db : Db) (st : Option Int)
    (hT : localHM tz now = trig)
    (hnew : st ≠ some (getYesterdayDate tz now)) :
    (tick gen tz trig now db st).lastRunDate = some (getYesterdayDate tz now)
    ∧ (tick gen tz trig now db st).ran.map (fun res => res.map Prod.fst)
        = some (getGroupsWithMessagesOnDate db
            (midnightUtcForDay tz (getYesterdayDate tz now))
            (midnightUtcForDay tz (getYesterdayDate tz now) + 86400000)) := by
  rw [tick_go gen tz trig now db st hT hnew]
  refine ⟨rfl, ?_⟩
  show some ((tickRun gen tz now db (getYesterdayDate tz now)).2.map Prod.fst) = _
  rw [show (tickRun gen tz now db (getYesterdayDate tz now)).2.map Prod.fst
      = getGroupsWithMessagesOnDate db (midnightUtcForDay tz (getYesterdayDate tz now))
          (midnightUtcForDay tz (getYesterdayDate tz now) + 86400000)
    from runGroups_covers gen tz now (getYesterdayDate tz now) _ db]

/-- Store with one message in each of three groups on 2024-06-14 UTC, used by
the C9 witness. -/
def dbThree : Db :=
  ⟨[],
   [⟨"a1", "g1@g.us", "u1", none, "x", 1718323200001, none⟩,
    ⟨"a2", "g2@g.us", "u2", none, "y", 1718323200002, none⟩,
    ⟨"a3", "g3@g.us", "u3", none, "z", 1718323200003, none⟩],
   [], [], false, 0⟩

/-- C9 witness: the isolation theorem at a tick over three groups with a
backend that fails for every group — all three groups are still attempted and
the date is recorded as handled. -/
theorem scheduler_failure_isolation_witness :
    (tick (fun _ => Except.error "backend down") (fun _ => (0 : Int)) (0, 0)
        1718409600000 dbThree none).lastRunDate = some 19888
    ∧ (tick (fun _ => Except.error "backend down") (fun _ => (0 : Int)) (0, 0)
        1718409600000 dbThree none).ran.map (fun res => res.map Prod.fst)
        = some ["g1@g.us", "g2@g.us", "g3@g.us"] := by
  have h := scheduler_failure_isolation (fun _ => Except.error "backend down")
    (fun _ => (0 : Int)) (0, 0) 1718409600000 dbThree none (by decide) (by decide)
  exact ⟨h.1.trans (by decide), h.2.trans (by decide)⟩

/-! ## Embeddings and similarity search (`db.ts`, `insertEmbedding` /
`searchSimilar`) -/

/-- The stored embedding vector for a message id, if any. -/
def lookupEmbedding (db : Db) (messageId : String) : Option (List ℚ) :=
  (db.embeddings.find? (fun p => p.1 == messageId)).map (fun p => p.2)

/-- `ArchiveDb.insertEmbedding` (`db.ts` lines 191–196): a no-op when the
vector subsystem is unavailable; otherwise `INSERT OR REPLACE INTO
message_embeddings` keyed by the primary key `message_id`.
Modelled from the spec: the repository declares the vec0 virtual table with
`embedding FLOAT[dims]` (`db.ts` lines 118–123), and the sqlite-vec extension
— external to this repository — rejects a vector of any other width; the spec
(§4.1, §7d) names that failure `DimensionMismatch`. -/
def insertEmbedding (db : Db) (messageId : String) (embedding : List ℚ) :
    Except String Db :=
  if db.vecAvailable = false then .ok db
  else if embedding.length ≠ db.dims then .error "DimensionMismatch"
  else .ok { db with embeddings :=
      (messageId, embedding) :: db.embeddings.filter (fun p => !(p.1 == messageId)) }

theorem find?_filter_other (l : List (String × List ℚ)) (mid k : String)
    (hk : k ≠ mid) :
    (l.filter (fun p => !(p.1 == mid))).find? (fun p => p.1 == k)
      = l.find? (fun p => p.1 == k) := by
  induction l with
  | nil => rfl
  | cons p l ih =>
    cases hpmid : (p.1 == mid) with
    | true =>
      have hpk : (p.1 == k) = false := by
        rw [beq_iff_eq] at hpmid
        rw [beq_eq_false_iff_ne, hpmid]
        exact fun hc => hk hc.symm
      simp [List.filter_cons, hpmid, List.find?_cons, hpk, ih]
    | false =>
      cases hpk : (p.1 == k) with
      | true => simp [List.filter_cons, hpmid, List.find?_cons, hpk]
      | false => simp [List.filter_cons, hpmid, List.find?_cons, hpk, ih]

/-- C6: `insertEmbedding` is a no-op when the vector subsystem is unavailable;
when it is available, a vector whose length differs from the configured
dimensionality fails with `DimensionMismatch`, and a correct-length vector is
written replace-on-write keyed by `messageId`, leaving every other key
unchanged. -/
theorem insertEmbedding_spec (db : Db) (messageId : String) (v : List ℚ) :
    (db.vecAvailable = false → insertEmbedding db messageId v = .ok db)
    ∧ (db.vecAvailable = true → v.length ≠ db.dims →
        insertEmbedding db messageId v = .error "DimensionMismatch")
    ∧ (db.vecAvailable = true → v.length = db.dims →
        ∃ db2, insertEmbedding db messageId v = .ok db2
          ∧ lookupEmbedding db2 messageId = some v
          ∧ ∀ k, k ≠ messageId → lookupEmbedding db2 k = lookupEmbedding db k) := by
  refine ⟨?_, ?_, ?_⟩
  · intro h
    unfold insertEmbedding
    rw [if_pos h]
  · intro hv hd
    unfold insertEmbedding
    rw [if_neg (by simp [hv]), if_pos hd]
  · intro hv hd
    refine ⟨{ db with embeddings :=
        (messageId, v) :: db.embeddings.filter (fun p => !(p.1 == messageId)) },
      ?_, ?_, ?_⟩
    · unfold insertEmbedding
      rw [if_neg (by simp [hv]), if_neg (not_not_intro hd)]
    · simp [lookupEmbedding, List.find?]
    · intro k hk
      unfold lookupEmbedding
      simp only [List.find?_cons, show ((messageId, v).1 == k) = false by
        rw [beq_eq_false_iff_ne]; exact fun hc => hk hc.symm]
      rw [find?_filter_other db.embeddings messageId k hk]

/-- Store with the vector subsystem available, one message and its embedding,
used by the C6 and C7 witnesses. -/
def dbVec : Db :=
  ⟨[], [⟨"a1", "g1@g.us", "u1", none, "x", 5, none⟩], [], [("a1", [1])], true, 1⟩

/-- C6 witness: the specification theorem applied to `dbVec` — a wrong-length
vector is rejected, and a correct-length vector for a fresh key is stored
without touching the existing key. -/
theorem insertEmbedding_spec_witness :
    insertEmbedding dbVec "a2" [1, 2] = .error "DimensionMismatch"
    ∧ ∃ db2, insertEmbedding dbVec "a2" [7] = .ok db2
        ∧ lookupEmbedding db2 "a2" = some [7]
        ∧ ∀ k, k ≠ "a2" → lookupEmbedding db2 k = lookupEmbedding dbVec k := by
  refine ⟨(insertEmbedding_spec dbVec "a2" [1, 2]).2.1 rfl (by decide), ?_⟩
  exact (insertEmbedding_spec dbVec "a2" [7]).2.2 rfl (by decide)

/-- Descending order on similarity scores: `ORDER BY score DESC`. -/
def scoreRel (a b : MessageRow × ℚ) : Prop := b.2 ≤ a.2

instance : DecidableRel scoreRel := fun a b => inferInstanceAs (Decidable (b.2 ≤ a.2))

instance : IsTotal (MessageRow × ℚ) scoreRel := ⟨fun a b => le_total b.2 a.2⟩

instance : IsTrans (MessageRow × ℚ) scoreRel := ⟨fun _ _ _ hab hbc => le_trans hbc hab⟩

/-- `ArchiveDb.searchSimilar` (`db.ts` lines 198–227): empty when the vector
subsystem is unavailable or the query vector is empty; otherwise the join of
`message_embeddings` with `messages` (on the primary key `id`), scored
`1 - vec_distance_cosine(embedding, query)`, optionally filtered to one group,
ordered by score descending, limited to `limit` rows.  `cosDist` is the
cosine-distance function of the sqlite-vec extension, a parameter here because
the spec (§1) places the vector index mathematics outside this system. -/
def searchSimilar (cosDist : List ℚ → List ℚ → ℚ) (db : Db) (queryVec : List ℚ)
    (limit : Nat) (groupJid : Option String) : List (MessageRow × ℚ) :=
  if db.vecAvailable = false ∨ queryVec.length = 0 then []
  else
    (List.insertionSort scoreRel
      (match groupJid with
        | some g =>
            (db.embeddings.filterMap (fun p =>
              (db.messages.find? (fun m => m.id == p.1)).map
                (fun m => (m, 1 - cosDist p.2 queryVec)))).filter
              (fun r => r.1.group_jid == g)
        | none =>
            db.embeddings.filterMap (fun p =>
              (db.messages.find? (fun m => m.id == p.1)).map
                (fun m => (m, 1 - cosDist p.2 queryVec))))).take limit

theorem mem_searchSimilar_scored (cosDist : List ℚ → List ℚ → ℚ) (db : Db)
    (queryVec : List ℚ) (r : MessageRow × ℚ)
    (hr : r ∈ db.embeddings.filterMap (fun p =>
        (db.messages.find? (fun m => m.id == p.1)).map
          (fun m => (m, 1 - cosDist p.2 queryVec)))) :
    ∃ emb, (r.1.id, emb) ∈ db.embeddings ∧ r.2 = 1 - cosDist emb queryVec := by
  obtain ⟨p, hpmem, hpf⟩ := List.mem_filterMap.mp hr
  obtain ⟨m, hfind, hmr⟩ := Option.map_eq_some'.mp hpf
  have hid : m.id = p.1 := by
    have h0 := List.find?_some hfind
    simp only [beq_iff_eq] at h0
    exact h0
  subst hmr
  refine ⟨p.2, ?_, rfl⟩
  show (m.id, p.2) ∈ db.embeddings
  rw [hid, Prod.mk.eta]
  exact hpmem

/-- C7: `searchSimilar` returns the empty sequence whenever the vector
subsystem is unavailable or the query vector is empty (it is a total function,
so it never throws); otherwise it returns at most `limit` rows, ordered by
descending score, each scored `1 − cosineDistance` against its stored
embedding, and restricted to the requested group when one is supplied. -/
theorem searchSimilar_spec (cosDist : List ℚ → List ℚ → ℚ) (db : Db)
    (queryVec : List ℚ) (limit : Nat) (groupJid : Option String) :
    (db.vecAvailable = false ∨ queryVec = [] →
        searchSimilar cosDist db queryVec limit groupJid = [])
    ∧ (searchSimilar cosDist db queryVec limit groupJid).length ≤ limit
    ∧ List.Sorted scoreRel (searchSimilar cosDist db queryVec limit groupJid)
    ∧ (∀ g, groupJid = some g →
        ∀ r ∈ searchSimilar cosDist db queryVec limit groupJid, r.1.group_jid = g)
    ∧ (∀ r ∈ searchSimilar cosDist db queryVec limit groupJid,
        ∃ emb, (r.1.id, emb) ∈ db.embeddings ∧ r.2 = 1 - cosDist emb queryVec) := by
  by_cases hguard : db.vecAvailable = false ∨ queryVec.length = 0
  · have hempty : searchSimilar cosDist db queryVec limit groupJid = [] := by
      unfold searchSimilar
      rw [if_pos hguard]
    rw [hempty]
    refine ⟨fun _ => rfl, by simp, List.sorted_nil, ?_, ?_⟩
    · intro g hg r hr
      cases hr
    · intro r hr
      cases hr
  · have hform : searchSimilar cosDist db queryVec limit groupJid
        = (List.insertionSort scoreRel
            (match groupJid with
              | some g =>
                  (db.embeddings.filterMap (fun p =>
                    (db.messages.find? (fun m => m.id == p.1)).map
                      (fun m => (m, 1 - cosDist p.2 queryVec)))).filter
                    (fun r => r.1.group_jid == g)
              | none =>
                  db.embeddings.filterMap (fun p =>
                    (db.messages.find? (fun m => m.id == p.1)).map
                      (fun m => (m, 1 - cosDist p.2 queryVec))))).take limit := by
      unfold searchSimilar
      rw [if_neg hguard]
    refine ⟨?_, ?_, ?_, ?_, ?_⟩
    · intro hor
      exfalso
      apply hguard
      rcases hor with hor | hor
      · exact Or.inl hor
      · exact Or.inr (by rw [hor]; rfl)
    · rw [hform, List.length_take]
      exact min_le_left _ _
    · rw [hform]
      exact (List.sorted_insertionSort scoreRel _).sublist (List.take_sublist _ _)
    · intro g hg r hr
      rw [hform, hg] at hr
      have hr2 := ((List.perm_insertionSort scoreRel _).mem_iff).mp
        ((List.take_sublist _ _).mem hr)
      have := List.mem_filter.mp hr2
      rw [beq_iff_eq] at this
      exact this.2
    · intro r hr
      rw [hform] at hr
      have hr2 := (List.take_sublist _ _).mem hr
      cases hgj : groupJid with
      | some g =>
        rw [hgj] at hr2
        have hr3 := ((List.perm_insertionSort scoreRel _).mem_iff).mp hr2
        exact mem_searchSimilar_scored cosDist db queryVec r
          (List.mem_filter.mp hr3).1
      | none =>
        rw [hgj] at hr2
        have hr3 := ((List.perm_insertionSort scoreRel _).mem_iff).mp hr2
        exact mem_searchSimilar_scored cosDist db queryVec r hr3

/-- C7 witness: the specification theorem at a populated vector store — the
empty query yields the empty result, and a scored group-filtered search
respects the limit and the group restriction. -/
theorem searchSimilar_spec_witness :
    searchSimilar (fun _ _ => 0) dbVec [] 5 (some "g1@g.us") = []
    ∧ (searchSimilar (fun _ _ => 0) dbVec [1] 5 (some "g1@g.us")).length ≤ 5
    ∧ (∀ r ∈ searchSimilar (fun _ _ => 0) dbVec [1] 5 (some "g1@g.us"),
        r.1.group_jid = "g1@g.us") := by
  refine ⟨(searchSimilar_spec (fun _ _ => 0) dbVec [] 5 (some "g1@g.us")).1
      (Or.inr rfl),
    (searchSimilar_spec (fun _ _ => 0) dbVec [1] 5 (some "g1@g.us")).2.1,
    (searchSimilar_spec (fun _ _ => 0) dbVec [1] 5 (some "g1@g.us")).2.2.2.1
      "g1@g.us" rfl⟩

/-! ## Capture handler (part_001, `createCaptureHandler`) -/

/-- Inbound message event as consumed by the capture handler.  The opaque
`event.metadata` record is consumed only through `metadata?.groupName`,
`metadata?.pushName` and `JSON.stringify(event.metadata)`, so it is modelled
by those three projections. -/
structure CaptureEvent where
  from_ : String
  content : Option String
  timestamp : Option Int
  groupName : Option String
  pushName : Option String
  metadataJson : Option String

/-- Hook context: the delivering channel and the conversation id. -/
structure HookCtx where
  channelId : String
  conversationId : Option String

/-- JavaScript `s.endsWith(suffix)`. -/
def jsEndsWith (s suffix : String) : Bool := suffix.data.isSuffixOf s.data

/-- JavaScript `s.trim()`: strip leading and trailing whitespace. -/
def jsTrim (s : String) : String :=
  String.mk
    (((s.data.dropWhile Char.isWhitespace).reverse.dropWhile Char.isWhitespace).reverse)

/-- `hookCtx.conversationId?.endsWith("@g.us")` — an absent conversation id is
falsy, exactly like a non-group id. -/
def convIsGroup (conversationId : Option String) : Bool :=
  match conversationId with
  | none => false
  | some c => jsEndsWith c "@g.us"

/-- `createCaptureHandler` (part_001 lines 25–59): ignore events that are not
WhatsApp group messages or whose content trims to empty; otherwise upsert the
group, insert the message row, and — only when the vector subsystem is
available — hand off `(messageId, content)` for the asynchronous embedding
write.  Returns the store after the call and the initiated embedding request,
if any. -/
def captureHandler (db : Db) (now : Int) (freshId : String) (ev : CaptureEvent)
    (hctx : HookCtx) : Db × Option (String × String) :=
  if hctx.channelId ≠ "whatsapp" then (db, none)
  else if convIsGroup hctx.conversationId = false then (db, none)
  else if jsTrim (ev.content.getD "") = "" then (db, none)
  else
    (ingest now db (hctx.conversationId.getD "") ev.groupName
      ⟨freshId, hctx.conversationId.getD "", ev.from_, ev.pushName,
       jsTrim (ev.content.getD ""), ev.timestamp.getD now, ev.metadataJson⟩,
     if (ingest now db (hctx.conversationId.getD "") ev.groupName
          ⟨freshId, hctx.conversationId.getD "", ev.from_, ev.pushName,
           jsTrim (ev.content.getD ""), ev.timestamp.getD now,
           ev.metadataJson⟩).vecAvailable
     then some (freshId, jsTrim (ev.content.getD "")) else none)

/-- C10: for an event whose content is absent or trims to empty, or whose
channel is not whatsapp, or whose conversation id does not end in `"@g.us"`
(including an absent conversation id), the capture handler changes no store
state: no group upsert, no message insert, and no embedding write is
initiated. -/
theorem captureHandler_frame (db : Db) (now : Int) (freshId : String)
    (ev : CaptureEvent) (hctx : HookCtx)
    (h : hctx.channelId ≠ "whatsapp" ∨ convIsGroup hctx.conversationId = false
        ∨ jsTrim (ev.content.getD "") = "") :
    captureHandler db now freshId ev hctx = (db, none) := by
  unfold captureHandler
  rcases h with h | h | h
  · rw [if_pos h]
  · by_cases hch : hctx.channelId ≠ "whatsapp"
    · rw [if_pos hch]
    · rw [if_neg hch, if_pos h]
  · by_cases hch : hctx.channelId ≠ "whatsapp"
    · rw [if_pos hch]
    · rw [if_neg hch]
      by_cases hcg : convIsGroup hctx.conversationId = false
      · rw [if_pos hcg]
      · rw [if_neg hcg, if_pos h]

/-- C10 witness: the frame theorem at a wrong channel, at whitespace-only
content, and at a non-group conversation id. -/
theorem captureHandler_frame_witness :
    captureHandler dbEmpty 0 "id1" ⟨"u1", some "hello", none, none, none, none⟩
        ⟨"telegram", some "g@g.us"⟩ = (dbEmpty, none)
    ∧ captureHandler dbEmpty 0 "id1" ⟨"u1", some "   ", none, none, none, none⟩
        ⟨"whatsapp", some "g@g.us"⟩ = (dbEmpty, none)
    ∧ captureHandler dbEmpty 0 "id1" ⟨"u1", some "hello", none, none, none, none⟩
        ⟨"whatsapp", some "u2@s.whatsapp.net"⟩ = (dbEmpty, none) :=
  ⟨captureHandler_frame dbEmpty 0 "id1" _ _ (Or.inl (by decide)),
   captureHandler_frame dbEmpty 0 "id1" _ _ (Or.inr (Or.inr (by decide))),
   captureHandler_frame dbEmpty 0 "id1" _ _ (Or.inr (Or.inl (by decide)))⟩

end Archive
